import Mathlib

/-!
# AnyBlob network messages: request descriptors and message tasks

A shallow embedding of `include/network/messages.hpp`:

* `MessageState`, the status enum of a message task;
* `OriginalMessage`, the request descriptor, with its constructor,
  `setPutRequestData`, `requiresFinish` and `finish`;
* `OriginalCallbackMessage`, the descriptor that carries a completion
  handler, with its overrides of `requiresFinish` and `finish`;
* `MessageTask` / `HTTPMessage`, whose data members and the constant
  `failuresMax` are declared in the header.  The bodies of
  `HTTPMessage::execute` and `HTTPMessage::reset` are not part of the header;
  they are modelled from the written specification and marked as such.

Conventions.  A `std::unique_ptr<utils::DataVector<uint8_t>>` is an
`Option DataVector` (`none` is the empty pointer), a raw pointer is an address
with `0` for `nullptr`, unsigned integers are natural numbers.  Member
functions that may write to `this` return the object after the call; a call
of the completion handler acts on the handler's world `W` and on the `result`
it is handed as an rvalue.
-/

namespace anyblob.network

/-! ## Data model -/

/-- Current status of the message task (`enum class MessageState : uint8_t`). -/
inductive MessageState where
  | Init
  | InitSending
  | Sending
  | InitReceiving
  | Receiving
  | Finished
  | Aborted
  deriving DecidableEq, Repr, Fintype

/-- The underlying `uint8_t` value of an enumerator: enumerators without an
initialiser are numbered from zero in declaration order. -/
def MessageState.toUInt8 : MessageState → Nat
  | .Init => 0
  | .InitSending => 1
  | .Sending => 2
  | .InitReceiving => 3
  | .Receiving => 4
  | .Finished => 5
  | .Aborted => 6

/-- Every enumerator of `MessageState`, in declaration order. -/
def MessageState.enumerators : List MessageState :=
  [.Init, .InitSending, .Sending, .InitReceiving, .Receiving, .Finished, .Aborted]

/-- The protocol progression of the specification,
`Init → InitSending → Sending → InitReceiving → Receiving → Finished`,
written as the list of its stages; `Aborted` is not a stage of it. -/
def MessageState.progression : List MessageState :=
  [.Init, .InitSending, .Sending, .InitReceiving, .Receiving, .Finished]

/-- One arrow of the protocol progression: the stage that follows `s`. -/
def MessageState.next : MessageState → Option MessageState
  | .Init => some .InitSending
  | .InitSending => some .Sending
  | .Sending => some .InitReceiving
  | .InitReceiving => some .Receiving
  | .Receiving => some .Finished
  | .Finished => none
  | .Aborted => none

/-- Stage `a` comes strictly before stage `b` in the protocol progression:
`b` is reached from `a` by at least one arrow (six arrows always suffice). -/
def MessageState.precedes (a b : MessageState) : Bool :=
  (List.range 6).any fun k =>
    (Nat.iterate (fun o => o.bind MessageState.next) (k + 1) (some a)) == some b

/-- State `s'` is `Aborted`, or `s` is not `Aborted` and `s'` is not earlier than
`s` in the protocol progression. -/
def MessageState.advances (s s' : MessageState) : Bool :=
  s' == MessageState.Aborted || (s != MessageState.Aborted && !(s'.precedes s))

/-- Terminal states of the specification: `Finished` and `Aborted`. -/
def MessageState.isTerminal : MessageState → Bool
  | .Finished => true
  | .Aborted => true
  | _ => false

/-- The byte container `utils::DataVector<uint8_t>`, by its contents. -/
abbrev DataVector := List (Fin 256)

/-- A raw pointer, by its address. -/
abbrev Ptr := Nat

/-- The null pointer. -/
def nullptr : Ptr := 0

/-- The original request message struct. -/
structure OriginalMessage where
  /-- The message -/
  message : Option DataVector
  /-- The result -/
  result : Option DataVector
  /-- The hostname -/
  hostname : String
  /-- The port -/
  port : Nat
  /-- Optional receive buffer -/
  receiveBuffer : Ptr
  /-- Optional size of the receive buffer -/
  bufferSize : Nat
  /-- Optional trace info -/
  traceId : Nat
  /-- The raw data ptr for put requests -/
  putData : Ptr
  /-- The length -/
  putLength : Nat
  /-- The state -/
  state : MessageState
  deriving DecidableEq, Repr

namespace OriginalMessage

/-- The constructor.  The member initialiser list moves `message` in, value
initialises `result` and `putLength`, sets `putData` to `nullptr` and `state`
to `Init`.  The last three parameters have the defaults of the declaration. -/
def new (message : Option DataVector) (hostname : String) (port : Nat)
    (receiveBuffer : Ptr := nullptr) (bufferSize : Nat := 0) (traceId : Nat := 0) :
    OriginalMessage :=
  { message := message
    result := none
    hostname := hostname
    port := port
    receiveBuffer := receiveBuffer
    bufferSize := bufferSize
    traceId := traceId
    putData := nullptr
    putLength := 0
    state := MessageState.Init }

/-- Add the put request data to the message. -/
def setPutRequestData (m : OriginalMessage) (data : Ptr) (length : Nat) : OriginalMessage :=
  { m with putData := data, putLength := length }

/-- The descriptor after a sequence of `setPutRequestData` calls, one
`(data, length)` pair per call, in order. -/
def setPutRequestDataAll (m : OriginalMessage) (calls : List (Ptr × Nat)) : OriginalMessage :=
  calls.foldl (fun acc call => acc.setPutRequestData call.1 call.2) m

/-- Callback required: the base class answers `false`.  The descriptor after
the call is returned next to the answer. -/
def requiresFinish (m : OriginalMessage) : Bool × OriginalMessage :=
  (false, m)

/-- Callback: the base class has an empty body.  `w` is the world a completion
handler would act on. -/
def finish {W : Type} (m : OriginalMessage) (w : W) : OriginalMessage × W :=
  (m, w)

end OriginalMessage

/-- A completion handler, as `callback(move(result))` calls it.  `move` is a
cast: the handler is handed `result` as an rvalue.  Its answer on the buffer
held in `result` and on its world `W` (captured variables and its own members)
is what `result` holds when the handler returns, and the world after the call.
`Callback` is a template parameter, so the handler decides what is left:
nothing when its parameter is a `unique_ptr` taken by value (the parameter is
move constructed from `result`) or when it moves the buffer out itself, the
buffer when it binds a reference and does not move from it. -/
abbrev Handler (W : Type) := Option DataVector → W → Option DataVector × W

/-- A handler whose parameter is a `unique_ptr` taken by value: the parameter is
move constructed from `result`, which is left empty, and the body `body` runs on
the buffer. -/
def Handler.byValue {W : Type} (body : Option DataVector → W → W) : Handler W :=
  fun r w => (none, body r w)

/-- A handler whose parameter is a reference (`unique_ptr&&` or
`const unique_ptr&`) and whose body `body` reads the buffer without moving from
it: `result` keeps the buffer. -/
def Handler.byReference {W : Type} (body : Option DataVector → W → W) : Handler W :=
  fun r w => (r, body r w)

/-- The callback original message: an `OriginalMessage` with a completion
handler. -/
structure OriginalCallbackMessage (W : Type) extends OriginalMessage where
  /-- The callback -/
  callback : Handler W

namespace OriginalCallbackMessage

/-- The constructor: the base class constructor on the same arguments, then the
handler is forwarded into `callback`. -/
def new {W : Type} (callback : Handler W) (message : Option DataVector)
    (hostname : String) (port : Nat) (receiveBuffer : Ptr := nullptr)
    (bufferSize : Nat := 0) (traceId : Nat := 0) : OriginalCallbackMessage W :=
  { toOriginalMessage :=
      OriginalMessage.new message hostname port receiveBuffer bufferSize traceId
    callback := callback }

/-- Override if callback required: answers `true`. -/
def requiresFinish {W : Type} (c : OriginalCallbackMessage W) :
    Bool × OriginalCallbackMessage W :=
  (true, c)

/-- The override `callback(move(result))`: one call of the handler on `result`;
afterwards `result` holds what the handler left in it.  The body writes to no
other member. -/
def finish {W : Type} (c : OriginalCallbackMessage W) (w : W) :
    OriginalCallbackMessage W × W :=
  ({ c with result := (c.callback c.result w).1 }, (c.callback c.result w).2)

/-- The descriptor and world after `n` consecutive calls of `finish`. -/
def finishTimes {W : Type} : Nat → OriginalCallbackMessage W → W → OriginalCallbackMessage W × W
  | 0, c, w => (c, w)
  | n + 1, c, w => finishTimes n (finish c w).1 (finish c w).2

/-- The record of handler invocations: the argument of each call, oldest first. -/
abbrev CallLog := List (Option DataVector)

/-- A handler instrumented to record each invocation: it behaves as `cb` on the
buffer and the world and appends its argument to the call log. -/
def recording {W : Type} (cb : Handler W) : Handler (W × CallLog) :=
  fun r s => ((cb r s.1).1, ((cb r s.1).2, s.2 ++ [r]))

/-- The descriptor `c` with its handler instrumented by `recording`. -/
def instrument {W : Type} (c : OriginalCallbackMessage W) :
    OriginalCallbackMessage (W × CallLog) :=
  { toOriginalMessage := c.toOriginalMessage
    callback := recording c.callback }

/-- A callback descriptor holding the result `[1, 2, 3]`, whose handler takes
the buffer by value and appends it to a call log. -/
def loggingExample : OriginalCallbackMessage CallLog :=
  { toOriginalMessage :=
      { OriginalMessage.new (some [71, 69, 84]) "storage.example" 80 with
        result := some [1, 2, 3]
        state := MessageState.Finished }
    callback := Handler.byValue fun r log => log ++ [r] }

/-- A callback descriptor holding the result `[1, 2, 3]`, whose handler binds
the buffer by reference, appends a copy of its contents to a call log and does
not move from it. -/
def borrowingExample : OriginalCallbackMessage CallLog :=
  { toOriginalMessage :=
      { OriginalMessage.new (some [71, 69, 84]) "storage.example" 80 with
        result := some [1, 2, 3]
        state := MessageState.Finished }
    callback := Handler.byReference fun r log => log ++ [r] }

end OriginalCallbackMessage

/-! ## Message tasks -/

/-- Type of the message task (`MessageTask::Type`). -/
inductive MessageTaskType where
  | HTTP
  deriving DecidableEq, Repr

/-- This implements a message task.  `originalMessage` is the descriptor the
task points to; the descriptor is carried inside the task so that writes through
the pointer are visible in the task after a call.  The `request` handle belongs
to the socket layer and has no observable content here. -/
structure MessageTask where
  /-- Original sending message -/
  originalMessage : OriginalMessage
  /-- The reduced offset in the send buffers -/
  sendBufferOffset : Int
  /-- The reduced offset in the receive buffers -/
  receiveBufferOffset : Int
  /-- The message task class -/
  type : MessageTaskType
  /-- The failures -/
  failures : Nat
  deriving DecidableEq, Repr

/-- The failure limit, `const unsigned failuresMax = 128`. -/
def MessageTask.failuresMax (_t : MessageTask) : Nat := 128

/-- Modelled from the spec: the parsed-header info record `HTTPHelper::Info`,
declared in `network/http_helper.hpp`.  It "holds at minimum content length or
chunked-transfer indication"; an absent length stands for chunked transfer. -/
structure Info where
  /-- Declared body length, absent for a chunked transfer -/
  contentLength : Option Nat
  /-- Number of bytes taken by the status line and the headers -/
  headerLength : Nat
  deriving DecidableEq, Repr

/-- Implements a http message roundtrip.  The opaque `tcpSettings` are handed
to the socket layer unchanged and are left out. -/
structure HTTPMessage extends MessageTask where
  /-- The receive chunk size -/
  chunkSize : Nat
  /-- HTTP info header -/
  info : Option Info
  deriving DecidableEq, Repr

/-- Modelled from the spec: the outcome of a non-blocking submit-send,
"{bytes-written, would-block, error}". -/
inductive SendOutcome where
  | bytesWritten (n : Nat)
  | wouldBlock
  | error
  deriving DecidableEq, Repr

/-- Modelled from the spec: the outcome of a non-blocking submit-receive,
"{bytes-read, would-block, error, connection-closed}". -/
inductive ReceiveOutcome where
  | bytesRead (data : DataVector)
  | wouldBlock
  | error
  | connectionClosed
  deriving DecidableEq, Repr

/-- Modelled from the spec: the send outcomes that are transient I/O failures,
would-block and error. -/
def SendOutcome.isTransientFailure : SendOutcome → Bool
  | SendOutcome.bytesWritten _ => false
  | SendOutcome.wouldBlock => true
  | SendOutcome.error => true

/-- Modelled from the spec: the receive outcomes that are transient I/O
failures, would-block, error and a premature close. -/
def ReceiveOutcome.isTransientFailure : ReceiveOutcome → Bool
  | ReceiveOutcome.bytesRead _ => false
  | ReceiveOutcome.wouldBlock => true
  | ReceiveOutcome.error => true
  | ReceiveOutcome.connectionClosed => true

/-- Modelled from the spec: the socket abstraction `IOUringSocket` as one step
of a task sees it, namely the outcome it reports for the submission of that
step, whichever of the two kinds the task makes. -/
structure IOUringSocket where
  /-- Outcome of a submit-send made in this step -/
  send : SendOutcome
  /-- Outcome of a submit-receive made in this step -/
  receive : ReceiveOutcome
  deriving DecidableEq, Repr

/-- Modelled from the spec: what the incremental header parser returns when it
is fed the bytes received so far: not yet complete, the parsed record "once
complete", or a protocol-level malformation. -/
inductive HeaderParse where
  | incomplete
  | complete (info : Info)
  | malformed
  deriving DecidableEq, Repr

/-- Modelled from the spec: the wire-format helper `HTTPHelper` of
`network/http_helper.hpp`, an external collaborator taken as a parameter: its
incremental header parser, and the completion condition of the body, "a declared
content length reached, or a chunked-encoding terminator observed". -/
structure HTTPHelper where
  /-- Incremental header parser on the bytes received so far -/
  parseHeader : DataVector → HeaderParse
  /-- The body is complete according to the record, on the bytes received so far -/
  bodyComplete : Info → DataVector → Bool

namespace HTTPMessage

/-- Write `s` to the state of the descriptor the task points to. -/
def setState (t : HTTPMessage) (s : MessageState) : HTTPMessage :=
  { t with originalMessage := { t.originalMessage with state := s } }

/-- The state of the descriptor the task points to. -/
def state (t : HTTPMessage) : MessageState :=
  t.originalMessage.state

/-- Number of bytes one exchange has to send: the payload and, if present, the
attached upload body. -/
def sendLength (t : HTTPMessage) : Nat :=
  (t.originalMessage.message.getD []).length + t.originalMessage.putLength

/-- The bytes accumulated into the result so far. -/
def received (t : HTTPMessage) : DataVector :=
  t.originalMessage.result.getD []

/-- Modelled from the spec: the failure policy of the message task, whose code
is not in the header.  "Any I/O submission that fails transiently increments the
failure counter; while the counter is below the ceiling, the current state is
retried" with the offsets kept; "when the ceiling is reached, the task
transitions unconditionally to Aborted regardless of current state".  The
counter is compared before this failure is counted, so that "129 consecutive
transient failures ... drive it to Aborted exactly at the 129th step".  The
counter is an `unsigned`, hence the reduction modulo `2 ^ 32`. -/
def transientFailure (t : HTTPMessage) : HTTPMessage :=
  let counted : HTTPMessage := { t with failures := (t.failures + 1) % 2 ^ 32 }
  if t.failures < t.failuresMax then counted else counted.setState MessageState.Aborted

/-- Modelled from the spec: one send submission of `execute` in a sending state.
Bytes written advance `sendBufferOffset` (a negative sentinel counts as nothing
sent yet), "so a partial write resumes correctly"; once everything is written
the task moves on to `full`; would-block and error are transient failures. -/
def submitSend (t : HTTPMessage) (socket : IOUringSocket) (full : MessageState) : HTTPMessage :=
  match socket.send with
  | SendOutcome.bytesWritten n =>
      let offset : Int := max t.sendBufferOffset 0 + n
      let written : HTTPMessage := { t with sendBufferOffset := offset }
      if (t.sendLength : Int) ≤ offset then written.setState full else written
  | SendOutcome.wouldBlock => t.transientFailure
  | SendOutcome.error => t.transientFailure

/-- Modelled from the spec: bytes read by one receive submission "of up to
`chunkSize` bytes" are appended to the result, and `receiveBufferOffset` "tracks
bytes accumulated into the result". -/
def accumulate (t : HTTPMessage) (data : DataVector) : HTTPMessage :=
  let bytes := data.take t.chunkSize
  { t with
    receiveBufferOffset := max t.receiveBufferOffset 0 + bytes.length
    originalMessage :=
      { t.originalMessage with result := some (t.received ++ bytes) } }

/-- Modelled from the spec: `HTTPMessage::execute`, declared in the header and
defined outside it; the task after one call, whose `state` is the value the call
returns.

* `Init`: "no I/O issued yet. Transition to InitSending on first step."
* `InitSending`: submit the request; "on full send, transition to Sending",
* `Sending`: "once fully flushed, to InitReceiving".
* `InitReceiving`: receive and parse the headers, "populating the header-info
  record. Transition to Receiving once headers are fully parsed"; a response
  that is already whole goes on to `Finished` in the same call; malformed
  headers "resolve to Aborted".
* `Receiving`: receive; "on completion, transition to Finished".
* Every submission may instead fail transiently, see `transientFailure`.
* `Finished` and `Aborted` are absorbing: nothing is mutated or resubmitted. -/
def execute (helper : HTTPHelper) (t : HTTPMessage) (socket : IOUringSocket) : HTTPMessage :=
  match t.state with
  | MessageState.Init => t.setState MessageState.InitSending
  | MessageState.InitSending => t.submitSend socket MessageState.Sending
  | MessageState.Sending => t.submitSend socket MessageState.InitReceiving
  | MessageState.InitReceiving =>
      match socket.receive with
      | ReceiveOutcome.bytesRead data =>
          let got := t.accumulate data
          match helper.parseHeader got.received with
          | HeaderParse.incomplete => got
          | HeaderParse.malformed => got.setState MessageState.Aborted
          | HeaderParse.complete info =>
              let parsed : HTTPMessage := { got with info := some info }
              if helper.bodyComplete info parsed.received then
                parsed.setState MessageState.Finished
              else
                parsed.setState MessageState.Receiving
      | ReceiveOutcome.wouldBlock => t.transientFailure
      | ReceiveOutcome.error => t.transientFailure
      | ReceiveOutcome.connectionClosed => t.transientFailure
  | MessageState.Receiving =>
      match socket.receive with
      | ReceiveOutcome.bytesRead data =>
          let got := t.accumulate data
          match got.info with
          | some info =>
              if helper.bodyComplete info got.received then
                got.setState MessageState.Finished
              else
                got
          | none => got
      | ReceiveOutcome.wouldBlock => t.transientFailure
      | ReceiveOutcome.error => t.transientFailure
      | ReceiveOutcome.connectionClosed => t.transientFailure
  | MessageState.Finished => t
  | MessageState.Aborted => t

/-- The task after a sequence of `execute` calls, one socket outcome per call. -/
def run (helper : HTTPHelper) (t : HTTPMessage) (sockets : List IOUringSocket) : HTTPMessage :=
  sockets.foldl (execute helper) t

/-- The submission the task makes in its current state is answered by a
transient I/O failure.  No submission is made in `Init` or in a terminal state. -/
def observesFailure (t : HTTPMessage) (socket : IOUringSocket) : Bool :=
  match t.state with
  | MessageState.InitSending => socket.send.isTransientFailure
  | MessageState.Sending => socket.send.isTransientFailure
  | MessageState.InitReceiving => socket.receive.isTransientFailure
  | MessageState.Receiving => socket.receive.isTransientFailure
  | _ => false

/-- Modelled from the spec: `HTTPMessage::reset`, declared in the header and
defined outside it.  "If `aborted` is true, outstanding partial result data is
discarded and offsets are zeroed"; if false it is "a controlled restart ...
also zeroing offsets".  No other effect is stated. -/
def reset (t : HTTPMessage) (_socket : IOUringSocket) (aborted : Bool) : HTTPMessage :=
  let zeroed : HTTPMessage := { t with sendBufferOffset := 0, receiveBufferOffset := 0 }
  if aborted then
    { zeroed with originalMessage := { zeroed.originalMessage with result := none } }
  else
    zeroed

/-- A wire-format helper for the examples: the headers are complete once two
bytes are in, they take two bytes and declare a body of three. -/
def exampleHelper : HTTPHelper :=
  { parseHeader := fun received =>
      if received.length < 2 then HeaderParse.incomplete
      else HeaderParse.complete { contentLength := some 3, headerLength := 2 }
    bodyComplete := fun info received =>
      decide (info.headerLength + info.contentLength.getD 0 ≤ received.length) }

/-- A task for the examples: a three byte request in state `InitSending`, no
failure counted, nothing sent or received yet. -/
def exampleTask : HTTPMessage :=
  { originalMessage :=
      { OriginalMessage.new (some [71, 69, 84]) "storage.example" 80 with
        state := MessageState.InitSending }
    sendBufferOffset := -1
    receiveBufferOffset := -1
    type := MessageTaskType.HTTP
    failures := 0
    chunkSize := 4
    info := none }

/-- A socket whose submissions would block. -/
def blockedSocket : IOUringSocket :=
  { send := SendOutcome.wouldBlock, receive := ReceiveOutcome.wouldBlock }

/-- A socket that accepts `n` bytes of a send and delivers `data` to a receive. -/
def readySocket (n : Nat) (data : DataVector) : IOUringSocket :=
  { send := SendOutcome.bytesWritten n, receive := ReceiveOutcome.bytesRead data }

end HTTPMessage

/-! ## Auxiliary lemmas -/

/-- A `finish()` call on an instrumented descriptor is the call on the
descriptor itself, with the argument of the handler appended to the log. -/
theorem OriginalCallbackMessage.finish_instrument {W : Type} (c : OriginalCallbackMessage W)
    (w : W) (log : OriginalCallbackMessage.CallLog) :
    c.instrument.finish (w, log) =
      ((c.finish w).1.instrument, ((c.finish w).2, log ++ [c.result])) :=
  rfl

/-- After `n` calls of `finish()` on an instrumented descriptor, the log is the
old log followed by `n` entries. -/
theorem OriginalCallbackMessage.finishTimes_log {W : Type} (n : Nat) :
    ∀ (c : OriginalCallbackMessage W) (w : W) (log : OriginalCallbackMessage.CallLog),
      ∃ calls : OriginalCallbackMessage.CallLog, calls.length = n ∧
        (OriginalCallbackMessage.finishTimes n c.instrument (w, log)).2.2 = log ++ calls := by
  induction n with
  | zero => intro c w log; exact ⟨[], rfl, (List.append_nil log).symm⟩
  | succ k ih =>
      intro c w log
      obtain ⟨calls, hlen, hlog⟩ := ih (c.finish w).1 (c.finish w).2 (log ++ [c.result])
      refine ⟨c.result :: calls, by simp [hlen], ?_⟩
      show (OriginalCallbackMessage.finishTimes k (c.instrument.finish (w, log)).1
        (c.instrument.finish (w, log)).2).2.2 = _
      rw [OriginalCallbackMessage.finish_instrument, hlog, List.append_assoc]
      rfl

namespace HTTPMessage

theorem setState_state (t : HTTPMessage) (s : MessageState) : (t.setState s).state = s := rfl

theorem setState_failures (t : HTTPMessage) (s : MessageState) :
    (t.setState s).failures = t.failures := rfl

theorem transientFailure_state (t : HTTPMessage) :
    t.transientFailure.state = if t.failures < 128 then t.state else MessageState.Aborted := by
  unfold transientFailure
  simp only [MessageTask.failuresMax]
  split <;> rfl

theorem accumulate_state (t : HTTPMessage) (data : DataVector) :
    (t.accumulate data).state = t.state := rfl

theorem accumulate_failures (t : HTTPMessage) (data : DataVector) :
    (t.accumulate data).failures = t.failures := rfl

theorem submitSend_progress (t : HTTPMessage) (socket : IOUringSocket) (full : MessageState)
    (n : Nat) (h : socket.send = SendOutcome.bytesWritten n) :
    ((t.submitSend socket full).state = t.state ∨ (t.submitSend socket full).state = full) ∧
    (t.submitSend socket full).failures = t.failures := by
  unfold submitSend
  rw [h]
  simp only
  split
  · exact ⟨Or.inr rfl, rfl⟩
  · exact ⟨Or.inl rfl, rfl⟩

theorem submitSend_failure (t : HTTPMessage) (socket : IOUringSocket) (full : MessageState)
    (h : socket.send.isTransientFailure = true) :
    t.submitSend socket full = t.transientFailure := by
  unfold submitSend
  cases hs : socket.send with
  | bytesWritten n => rw [hs] at h; simp [SendOutcome.isTransientFailure] at h
  | wouldBlock => rfl
  | error => rfl


theorem execute_of_failure (helper : HTTPHelper) (t : HTTPMessage) (socket : IOUringSocket)
    (hobs : t.observesFailure socket = true) :
    t.execute helper socket = t.transientFailure := by
  unfold observesFailure at hobs
  unfold execute
  cases hst : t.state <;> simp only [hst] at hobs ⊢
  · exact absurd hobs (by simp)
  · exact submitSend_failure t socket _ hobs
  · exact submitSend_failure t socket _ hobs
  · cases hr : socket.receive <;> simp [hr, ReceiveOutcome.isTransientFailure] at hobs ⊢
  · cases hr : socket.receive <;> simp [hr, ReceiveOutcome.isTransientFailure] at hobs ⊢
  · exact absurd hobs (by simp)
  · exact absurd hobs (by simp)

theorem execute_of_progress (helper : HTTPHelper) (t : HTTPMessage) (socket : IOUringSocket)
    (hobs : t.observesFailure socket = false) :
    (t.execute helper socket).failures = t.failures ∧
    MessageState.advances t.state (t.execute helper socket).state = true := by
  unfold observesFailure at hobs
  unfold execute
  cases hst : t.state <;> simp only [hst] at hobs ⊢
  · exact ⟨rfl, by rw [setState_state]; decide⟩
  · cases hs : socket.send with
    | bytesWritten n =>
        obtain ⟨h1, h2⟩ := submitSend_progress t socket MessageState.Sending n hs
        refine ⟨h2, ?_⟩
        rcases h1 with h1 | h1
        · rw [h1, hst]; decide
        · rw [h1]; decide
    | wouldBlock => simp [hs, SendOutcome.isTransientFailure] at hobs
    | error => simp [hs, SendOutcome.isTransientFailure] at hobs
  · cases hs : socket.send with
    | bytesWritten n =>
        obtain ⟨h1, h2⟩ := submitSend_progress t socket MessageState.InitReceiving n hs
        refine ⟨h2, ?_⟩
        rcases h1 with h1 | h1
        · rw [h1, hst]; decide
        · rw [h1]; decide
    | wouldBlock => simp [hs, SendOutcome.isTransientFailure] at hobs
    | error => simp [hs, SendOutcome.isTransientFailure] at hobs
  · cases hr : socket.receive with
    | bytesRead data =>
        simp only []
        cases hp : helper.parseHeader (t.accumulate data).received with
        | incomplete =>
            simp only []
            exact ⟨rfl, by rw [accumulate_state, hst]; decide⟩
        | malformed =>
            simp only []
            exact ⟨rfl, by rw [setState_state]; decide⟩
        | complete info =>
            simp only []
            split
            · exact ⟨rfl, by rw [setState_state]; decide⟩
            · exact ⟨rfl, by rw [setState_state]; decide⟩
    | wouldBlock => simp [hr, ReceiveOutcome.isTransientFailure] at hobs
    | error => simp [hr, ReceiveOutcome.isTransientFailure] at hobs
    | connectionClosed => simp [hr, ReceiveOutcome.isTransientFailure] at hobs
  · cases hr : socket.receive with
    | bytesRead data =>
        simp only []
        cases hi : (t.accumulate data).info with
        | none =>
            simp only []
            exact ⟨rfl, by rw [accumulate_state, hst]; decide⟩
        | some info =>
            simp only []
            split
            · exact ⟨rfl, by rw [setState_state]; decide⟩
            · exact ⟨rfl, by rw [accumulate_state, hst]; decide⟩
    | wouldBlock => simp [hr, ReceiveOutcome.isTransientFailure] at hobs
    | error => simp [hr, ReceiveOutcome.isTransientFailure] at hobs
    | connectionClosed => simp [hr, ReceiveOutcome.isTransientFailure] at hobs
  · exact ⟨trivial, by decide⟩
  · exact ⟨trivial, by decide⟩

end HTTPMessage

namespace MessageState

theorem advances_refl (s : MessageState) : s.advances s = true := by
  cases s <;> decide

theorem advances_aborted (s : MessageState) : s.advances MessageState.Aborted = true := by
  cases s <;> decide

theorem advances_trans (a b c : MessageState) (hab : a.advances b = true)
    (hbc : b.advances c = true) : a.advances c = true := by
  cases a <;> cases b <;> cases c <;> first | decide | exact absurd hab (by decide) | exact absurd hbc (by decide)

theorem advances_iff (s s' : MessageState) :
    s.advances s' = true ↔
      s' = MessageState.Aborted ∨ (s ≠ MessageState.Aborted ∧ s'.precedes s = false) := by
  cases s <;> cases s' <;> decide

theorem advances_code (s s' : MessageState) (h : s.advances s' = true) :
    s.toUInt8 ≤ s'.toUInt8 := by
  cases s <;> cases s' <;> first | decide | exact absurd h (by decide)

end MessageState

namespace HTTPMessage

theorem execute_advances (helper : HTTPHelper) (t : HTTPMessage) (socket : IOUringSocket) :
    MessageState.advances t.state (t.execute helper socket).state = true := by
  cases hobs : t.observesFailure socket with
  | false => exact (execute_of_progress helper t socket hobs).2
  | true =>
      rw [execute_of_failure helper t socket hobs, transientFailure_state]
      split
      · exact MessageState.advances_refl _
      · exact MessageState.advances_aborted _

theorem run_append (helper : HTTPHelper) (t : HTTPMessage) (xs ys : List IOUringSocket) :
    run helper t (xs ++ ys) = run helper (run helper t xs) ys := by
  unfold run
  exact List.foldl_append _ _ _ _

theorem run_advances (helper : HTTPHelper) (sockets : List IOUringSocket) :
    ∀ t : HTTPMessage, MessageState.advances t.state (run helper t sockets).state = true := by
  induction sockets with
  | nil => intro t; exact MessageState.advances_refl _
  | cons socket rest ih =>
      intro t
      exact MessageState.advances_trans _ _ _ (execute_advances helper t socket)
        (ih (t.execute helper socket))

theorem run_take_advances (helper : HTTPHelper) (t : HTTPMessage)
    (sockets : List IOUringSocket) (i j : Nat) (hij : i ≤ j) :
    MessageState.advances (run helper t (sockets.take i)).state
      (run helper t (sockets.take j)).state = true := by
  have hsplit : sockets.take j = sockets.take i ++ (sockets.take j).drop i := by
    have h := (List.take_append_drop i (sockets.take j)).symm
    rwa [List.take_take, Nat.min_eq_left hij] at h
  rw [hsplit, run_append]
  exact run_advances helper _ _

end HTTPMessage

/-! ## The status enum -/

/-- C9: `MessageState` has exactly seven values, with codes 0 to 6 in the order
Init, InitSending, Sending, InitReceiving, Receiving, Finished, Aborted; the
codes are pairwise distinct; on non-Aborted states the order of the codes is the
order of the protocol progression; a state is terminal exactly when its code is
at least 5. -/
theorem messageState_codes :
    Fintype.card MessageState = 7 ∧
    (∀ s : MessageState, s ∈ MessageState.enumerators) ∧
    MessageState.enumerators.map MessageState.toUInt8 = [0, 1, 2, 3, 4, 5, 6] ∧
    (∀ s : MessageState, s.toUInt8 < 2 ^ 8) ∧
    Function.Injective MessageState.toUInt8 ∧
    (∀ a b : MessageState, a ≠ MessageState.Aborted → b ≠ MessageState.Aborted →
      (a.toUInt8 < b.toUInt8 ↔ a.precedes b = true)) ∧
    (∀ s : MessageState, s.isTerminal = true ↔ 5 ≤ s.toUInt8) ∧
    (∀ s : MessageState,
      s.isTerminal = true ↔ s = MessageState.Finished ∨ s = MessageState.Aborted) := by
  refine ⟨rfl, ?_, rfl, ?_, ?_, ?_, ?_, ?_⟩
  · intro s; cases s <;> decide
  · intro s; cases s <;> decide
  · intro a b; cases a <;> cases b <;> decide
  · intro a b; cases a <;> cases b <;> decide
  · intro s; cases s <;> decide
  · intro s; cases s <;> decide

/-! ## Request descriptors -/

/-- C3: `requiresFinish()` answers false on every plain descriptor and true on
every callback descriptor, whatever the fields hold, and the descriptor after
the call is the descriptor before it. -/
theorem requiresFinish_by_kind {W : Type} :
    (∀ m : OriginalMessage, m.requiresFinish = (false, m)) ∧
    (∀ c : OriginalCallbackMessage W, c.requiresFinish = (true, c)) :=
  ⟨fun _ => rfl, fun _ => rfl⟩

/-- C4: a freshly constructed descriptor holds the six constructor arguments,
is in state Init, has no result and no upload body; with the optional arguments
omitted the receive buffer is null and the buffer size and trace id are 0; the
callback descriptor's constructor gives the same base fields. -/
theorem constructor_fields {W : Type} (message : Option DataVector) (hostname : String)
    (port : Nat) (receiveBuffer : Ptr) (bufferSize traceId : Nat)
    (callback : Handler W) :
    OriginalMessage.new message hostname port receiveBuffer bufferSize traceId =
      { message := message, result := none, hostname := hostname, port := port,
        receiveBuffer := receiveBuffer, bufferSize := bufferSize, traceId := traceId,
        putData := 0, putLength := 0, state := MessageState.Init } ∧
    OriginalMessage.new message hostname port =
      { message := message, result := none, hostname := hostname, port := port,
        receiveBuffer := 0, bufferSize := 0, traceId := 0,
        putData := 0, putLength := 0, state := MessageState.Init } ∧
    (OriginalCallbackMessage.new callback message hostname port receiveBuffer bufferSize
        traceId).toOriginalMessage =
      OriginalMessage.new message hostname port receiveBuffer bufferSize traceId ∧
    (OriginalCallbackMessage.new callback message hostname port).toOriginalMessage =
      OriginalMessage.new message hostname port ∧
    (OriginalCallbackMessage.new callback message hostname port receiveBuffer bufferSize
        traceId).callback = callback :=
  ⟨rfl, rfl, rfl, rfl, rfl⟩

/-- C5: `setPutRequestData(data, length)` leaves `putData = data` and
`putLength = length` and every other field as it was; after any number of such
calls on a constructed descriptor the destination is the constructor's. -/
theorem setPutRequestData_frame (m : OriginalMessage) (data : Ptr) (length : Nat) :
    m.setPutRequestData data length =
      { message := m.message, result := m.result, hostname := m.hostname, port := m.port,
        receiveBuffer := m.receiveBuffer, bufferSize := m.bufferSize, traceId := m.traceId,
        putData := data, putLength := length, state := m.state } ∧
    (∀ calls : List (Ptr × Nat),
      (m.setPutRequestDataAll calls).hostname = m.hostname ∧
      (m.setPutRequestDataAll calls).port = m.port) ∧
    (∀ (message : Option DataVector) (hostname : String) (port : Nat) (receiveBuffer : Ptr)
        (bufferSize traceId : Nat) (calls : List (Ptr × Nat)),
      ((OriginalMessage.new message hostname port receiveBuffer bufferSize
          traceId).setPutRequestDataAll calls).hostname = hostname ∧
      ((OriginalMessage.new message hostname port receiveBuffer bufferSize
          traceId).setPutRequestDataAll calls).port = port) := by
  have frame : ∀ (calls : List (Ptr × Nat)) (d : OriginalMessage),
      (d.setPutRequestDataAll calls).hostname = d.hostname ∧
      (d.setPutRequestDataAll calls).port = d.port := by
    intro calls
    induction calls with
    | nil => intro d; exact ⟨rfl, rfl⟩
    | cons call rest ih =>
        intro d
        have h := ih (d.setPutRequestData call.1 call.2)
        exact ⟨h.1, h.2⟩
  exact ⟨rfl, fun calls => frame calls m, fun message hostname port rb bs tid calls =>
    frame calls (OriginalMessage.new message hostname port rb bs tid)⟩

/-- C1, as stated, fails: a handler that binds the buffer by reference and does
not move from it is invoked by `finish()` once, on the held buffer, and the
descriptor still holds the buffer afterwards. -/
theorem finish_keeps_result_for_reference_handler :
    (OriginalCallbackMessage.borrowingExample.finish []).2 = [some [1, 2, 3]] ∧
    (OriginalCallbackMessage.borrowingExample.finish []).1.result = some [1, 2, 3] ∧
    ¬ (OriginalCallbackMessage.borrowingExample.finish []).1.result = none := by
  decide

/-- C1, amended: one call of `finish()` on a callback descriptor invokes the
completion handler exactly once, on the buffer held in `result` before the call;
afterwards `result` holds what the handler left in it, which is nothing when the
handler takes the buffer by value; no other field changes. -/
theorem finish_invokes_handler_once {W : Type} (c : OriginalCallbackMessage W) (w : W)
    (log : OriginalCallbackMessage.CallLog) (body : Option DataVector → W → W) :
    (c.finish w).2 = (c.callback c.result w).2 ∧
    (c.instrument.finish (w, log)).2 = ((c.callback c.result w).2, log ++ [c.result]) ∧
    (c.finish w).1.result = (c.callback c.result w).1 ∧
    ((OriginalCallbackMessage.mk c.toOriginalMessage (Handler.byValue body)).finish w).1.result =
      none ∧
    ((OriginalCallbackMessage.mk c.toOriginalMessage (Handler.byValue body)).finish w).2 =
      body c.result w ∧
    (c.finish w).1.message = c.message ∧
    (c.finish w).1.hostname = c.hostname ∧
    (c.finish w).1.port = c.port ∧
    (c.finish w).1.receiveBuffer = c.receiveBuffer ∧
    (c.finish w).1.bufferSize = c.bufferSize ∧
    (c.finish w).1.traceId = c.traceId ∧
    (c.finish w).1.putData = c.putData ∧
    (c.finish w).1.putLength = c.putLength ∧
    (c.finish w).1.state = c.state ∧
    (c.finish w).1.callback = c.callback :=
  ⟨rfl, rfl, rfl, rfl, rfl, rfl, rfl, rfl, rfl, rfl, rfl, rfl, rfl, rfl, rfl⟩

/-- C10: `finish()` on a plain descriptor changes nothing and invokes no
handler: the result held before the call is still held and the state is the
same, also on the base part of a callback descriptor; emptying `result` is left
to the override, which does so for a handler that takes the buffer by value. -/
theorem plain_finish_is_noop {W : Type} (m : OriginalMessage) (w : W) :
    m.finish w = (m, w) ∧
    (m.finish w).1.result = m.result ∧
    (m.finish w).1.state = m.state ∧
    (∀ c : OriginalCallbackMessage W, (c.toOriginalMessage.finish w).1.result = c.result) ∧
    (∀ body : Option DataVector → W → W,
      ((OriginalCallbackMessage.mk m (Handler.byValue body)).finish w).1.result = none) :=
  ⟨rfl, rfl, rfl, fun _ => rfl, fun _ => rfl⟩

/-- C2, as stated, fails: two `finish()` calls on a descriptor whose handler
logs its argument leave two entries in the log, the held buffer and then an
absent one. -/
theorem finish_twice_invokes_handler_twice :
    (OriginalCallbackMessage.finishTimes 2 OriginalCallbackMessage.loggingExample []).2 =
      [some [1, 2, 3], none] ∧
    ¬ (OriginalCallbackMessage.finishTimes 2
        OriginalCallbackMessage.loggingExample []).2.length ≤ 1 := by
  decide

/-- C2, amended: every `finish()` call invokes the handler once, so a sequence
of `n` calls invokes it `n` times in total: it adds `n` entries to the log of
invocations. -/
theorem finishTimes_invokes_handler_each_time {W : Type} (c : OriginalCallbackMessage W)
    (w : W) (log : OriginalCallbackMessage.CallLog) (n : Nat) :
    (OriginalCallbackMessage.finishTimes n c.instrument (w, log)).2.2.length = log.length + n ∧
    ∃ calls : OriginalCallbackMessage.CallLog, calls.length = n ∧
      (OriginalCallbackMessage.finishTimes n c.instrument (w, log)).2.2 = log ++ calls := by
  obtain ⟨calls, hlen, hlog⟩ := OriginalCallbackMessage.finishTimes_log n c w log
  exact ⟨by rw [hlog, List.length_append, hlen], calls, hlen, hlog⟩

/-! ## Message tasks -/

/-- C6: from a non-terminal state, one `execute` call ends in `Aborted` or in a
state that is not earlier in the progression than the state before the call (so
the state code does not decrease); hence along any sequence of calls a later
observed state is `Aborted` or not earlier than any state observed before it. -/
theorem execute_never_moves_backwards (helper : HTTPHelper) (t : HTTPMessage)
    (socket : IOUringSocket) (hlive : t.state.isTerminal = false) :
    ((t.execute helper socket).state = MessageState.Aborted ∨
      (t.execute helper socket).state.precedes t.state = false) ∧
    t.state.toUInt8 ≤ (t.execute helper socket).state.toUInt8 ∧
    (∀ (sockets : List IOUringSocket) (i j : Nat), i ≤ j →
      ((HTTPMessage.run helper t (sockets.take j)).state = MessageState.Aborted ∨
        ((HTTPMessage.run helper t (sockets.take i)).state ≠ MessageState.Aborted ∧
          (HTTPMessage.run helper t (sockets.take j)).state.precedes
            (HTTPMessage.run helper t (sockets.take i)).state = false)) ∧
      (HTTPMessage.run helper t (sockets.take i)).state.toUInt8 ≤
        (HTTPMessage.run helper t (sockets.take j)).state.toUInt8) := by
  have hstep := HTTPMessage.execute_advances helper t socket
  have hlive' : t.state ≠ MessageState.Aborted := by
    intro hab
    rw [hab] at hlive
    exact absurd hlive (by decide)
  refine ⟨?_, MessageState.advances_code _ _ hstep, ?_⟩
  · rcases (MessageState.advances_iff _ _).1 hstep with h | h
    · exact Or.inl h
    · exact Or.inr h.2
  · intro sockets i j hij
    have hrun := HTTPMessage.run_take_advances helper t sockets i j hij
    exact ⟨(MessageState.advances_iff _ _).1 hrun, MessageState.advances_code _ _ hrun⟩

/-- C6 at a concrete task: a send that would block leaves the example task in
`InitSending`, and over a run that sends, flushes and receives, the state after
five calls is not earlier than the state after two. -/
theorem execute_never_moves_backwards_witness :
    HTTPMessage.exampleTask.state.isTerminal = false ∧
    ((HTTPMessage.exampleTask.execute HTTPMessage.exampleHelper
        HTTPMessage.blockedSocket).state = MessageState.Aborted ∨
      (HTTPMessage.exampleTask.execute HTTPMessage.exampleHelper
        HTTPMessage.blockedSocket).state.precedes HTTPMessage.exampleTask.state = false) ∧
    (HTTPMessage.run HTTPMessage.exampleHelper HTTPMessage.exampleTask
        ([HTTPMessage.readySocket 3 [], HTTPMessage.blockedSocket, HTTPMessage.readySocket 0 [],
          HTTPMessage.readySocket 0 [1], HTTPMessage.readySocket 0 [2, 3, 4, 5]].take 2)).state.toUInt8 ≤
      (HTTPMessage.run HTTPMessage.exampleHelper HTTPMessage.exampleTask
        ([HTTPMessage.readySocket 3 [], HTTPMessage.blockedSocket, HTTPMessage.readySocket 0 [],
          HTTPMessage.readySocket 0 [1], HTTPMessage.readySocket 0 [2, 3, 4, 5]].take 5)).state.toUInt8 :=
  ⟨by decide,
    (execute_never_moves_backwards HTTPMessage.exampleHelper HTTPMessage.exampleTask
      HTTPMessage.blockedSocket (by decide)).1,
    ((execute_never_moves_backwards HTTPMessage.exampleHelper HTTPMessage.exampleTask
      HTTPMessage.blockedSocket (by decide)).2.2 _ 2 5 (by decide)).2⟩

/-- C8: whatever the offsets and the accumulated result before the call,
`reset(socket, aborted)` leaves both offsets at 0 for both values of `aborted`,
and for `aborted = true` the accumulated result bytes are gone. -/
theorem reset_zeroes_offsets (t : HTTPMessage) (socket : IOUringSocket) (aborted : Bool) :
    (t.reset socket aborted).sendBufferOffset = 0 ∧
    (t.reset socket aborted).receiveBufferOffset = 0 ∧
    (t.reset socket true).originalMessage.result = none ∧
    (t.reset socket true).received = [] := by
  cases aborted <;> exact ⟨rfl, rfl, rfl, rfl⟩

end anyblob.network
